import Mathlib

/-!
Verification development for `commodity_price_tracker.py` (class
`CommodityPriceTracker`).  The Python code is shallowly embedded: numeric
cell values are modelled as rationals (`ℚ`), Python exceptions as an
explicit error type carried by `Except`, and the remote worksheet as a
list of rows.  Cells read back from the sheet are strings; a cell is
modelled as its text together with what Python's `float()` would return
on it (`none` when `float()` raises `ValueError`; cells whose text would
parse to a non-finite float are outside the model).
-/

/-- The Python exceptions that the modelled code can raise or catch. -/
inductive PyErr where
  | valueError
  | typeError
  | zeroDivisionError
  | indexError
  deriving DecidableEq

/-- A value held in a snapshot dictionary (`category_data` built by
`fetch_commodity_prices`): a Python float, the string sentinel `'N/A'`,
or some other string (the date or the market-analysis text). -/
inductive SnapVal where
  | num : ℚ → SnapVal
  | na : SnapVal
  | text : String → SnapVal
  deriving DecidableEq

/-- A cell as returned by `worksheet.get_all_values()`: its string text
plus the result of Python `float()` on that text (`none` = `ValueError`). -/
structure SheetCell where
  text : String
  num : Option ℚ
  deriving DecidableEq

/-- Python `float()` applied to a snapshot value (line 283,
`float(current_price)`): a float passes through, the `'N/A'` sentinel and
other non-numeric strings raise `ValueError`. -/
def pyFloatSnap : SnapVal → Except PyErr ℚ
  | .num q => .ok q
  | .na => .error .valueError
  | .text _ => .error .valueError

/-- Python `str.endswith` (line 264, `header.endswith('WoW')`). -/
def pyEndsWith (s suffix : String) : Bool :=
  List.isSuffixOf suffix.data s.data

/-- Python dict assignment `d[k] = v` on an insertion-ordered dict
modelled as an association list: overwrite in place, or append. -/
def dictInsert (k : String) (v : Option ℚ) :
    List (String × Option ℚ) → List (String × Option ℚ)
  | [] => [(k, v)]
  | (k', v') :: rest =>
    if k' = k then (k, v) :: rest else (k', v') :: dictInsert k v rest

/-- Python dict lookup: `some v` when `k in d` (with `d[k] = v`),
`none` when absent. -/
def dictGet (k : String) : List (String × Option ℚ) → Option (Option ℚ)
  | [] => none
  | (k', v) :: rest => if k = k' then some v else dictGet k rest

/-- Lines 262–265: the loop body of
`for idx, header in enumerate(headers): ...` that fills
`last_week_prices`.  `lastRow.get? idx` outside the row raises
`IndexError`; a cell other than `'N/A'` whose text does not parse raises
`ValueError` (`float(last_row[idx])`); an `'N/A'` cell stores `None`. -/
def build_last_week (lastRow : List SheetCell) :
    List SheetCell → Nat → List (String × Option ℚ) →
    Except PyErr (List (String × Option ℚ))
  | [], _, acc => .ok acc
  | h :: rest, idx, acc =>
    if h.text = "Date" ∨ h.text = "Market Analysis" then
      build_last_week lastRow rest (idx + 1) acc
    else if pyEndsWith h.text "WoW" then
      build_last_week lastRow rest (idx + 1) acc
    else
      match lastRow.get? idx with
      | none => .error .indexError
      | some c =>
        if c.text = "N/A" then
          build_last_week lastRow rest (idx + 1) (dictInsert h.text none acc)
        else
          match c.num with
          | some q => build_last_week lastRow rest (idx + 1) (dictInsert h.text (some q) acc)
          | none => .error .valueError

/-- Lines 257–265: `last_week_prices` stays empty unless
`len(existing_data) > 1`; otherwise it is built from the header row
(`existing_data[0]`) and the last row (`existing_data[-1]`). -/
def last_week_prices : List (List SheetCell) → Except PyErr (List (String × Option ℚ))
  | [] => .ok []
  | [_] => .ok []
  | headers :: r :: rest =>
    build_last_week (List.getLast (r :: rest) (List.cons_ne_nil r rest)) headers 0 []

/-- Lines 281–288: the WoW cell for one field.  `prev = none` models
`header not in last_week_prices`, `prev = some none` models a stored
`None`; in both cases the `else` branch appends `'N/A'`.  Otherwise the
`try` block evaluates `float(current_price)` (a `ValueError` is caught
and degrades to `'N/A'`), then divides: a prior of `0` raises
`ZeroDivisionError`, which the `except (ValueError, TypeError)` clause
does NOT catch. -/
def wow_cell (cur : SnapVal) (prev : Option (Option ℚ)) : Except PyErr SnapVal :=
  match prev with
  | some (some p) =>
    match pyFloatSnap cur with
    | .ok c => if p = 0 then .error .zeroDivisionError else .ok (.num ((c - p) / p))
    | .error _ => .ok .na
  | _ => .ok .na

/-- Lines 268–291: the loop over `base_headers` that builds
`new_headers` and `new_row`.  A `Date` or `Market Analysis` field is
copied verbatim; any other field contributes `[F, F ++ " WoW"]` to the
headers and `[value, wow]` to the row.  An uncaught exception from
`wow_cell` aborts the loop (the partially built lists are discarded). -/
def build_wow_row (lw : List (String × Option ℚ)) :
    List (String × SnapVal) → Except PyErr (List String × List SnapVal)
  | [] => .ok ([], [])
  | (n, v) :: rest =>
    if n = "Date" ∨ n = "Market Analysis" then
      match build_wow_row lw rest with
      | .error e => .error e
      | .ok (hs, rs) => .ok (n :: hs, v :: rs)
    else
      match wow_cell v (dictGet n lw) with
      | .error e => .error e
      | .ok w =>
        match build_wow_row lw rest with
        | .error e => .error e
        | .ok (hs, rs) => .ok (n :: (n ++ " WoW") :: hs, v :: w :: rs)

/-- Lines 130–235, `format_worksheet`: the batched format request may
fail remotely (`batchErr`); the outer `except` logs the error and
re-raises it (line 235).  Each per-column `columns_auto_resize` call may
fail (`resizeErrs`), but those failures are caught by the inner
`except` (lines 228–229) and only logged, so they never reach the
caller. -/
def format_worksheet (batchErr : Option PyErr) (resizeErrs : List (Option PyErr)) :
    Except PyErr Unit :=
  match batchErr with
  | some e => .error e
  | none => .ok ()

/-- Lines 246–307: the body of the per-category `try` in
`update_google_sheet`, from reading `existing_data` to formatting.
Returns the worksheet contents after the call (`none` = unchanged) and
the exception outcome.  Order is the source's: `last_week_prices` is
built first (line 258), then `if prices and prices[0]:` guards the
write; `worksheet.clear()` / `insert_row` / `append_row` happen only
after `new_headers`/`new_row` were built without an uncaught exception,
so an aborted build leaves the sheet untouched. -/
def update_sheet_category (batchErr : Option PyErr) (resizeErrs : List (Option PyErr))
    (existing : List (List SheetCell)) (snap : List (String × SnapVal)) :
    Option (List (List SnapVal)) × Except PyErr Unit :=
  match last_week_prices existing with
  | .error e => (none, .error e)
  | .ok lw =>
    if snap = [] then (none, .ok ())
    else
      match build_wow_row lw snap with
      | .error e => (none, .error e)
      | .ok (hs, rs) =>
        match format_worksheet batchErr resizeErrs with
        | .error e => (some [hs.map SnapVal.text, rs], .error e)
        | .ok _ => (some [hs.map SnapVal.text, rs], .ok ())

/-- One category's inputs in a run of `update_google_sheet`: its sheet
name, the rows already on the sheet, the fresh snapshot, an optional
remote failure injected anywhere in this category's synchronization
(`inj`), and the formatting failure parameters. -/
structure CatJob where
  name : String
  existing : List (List SheetCell)
  snap : List (String × SnapVal)
  inj : Option PyErr
  batchErr : Option PyErr
  resizeErrs : List (Option PyErr)

/-- One category's synchronization attempt (the body of the inner
`try` at lines 243–307): an injected remote failure aborts it before
any write; otherwise `update_sheet_category` runs. -/
def sync_category (j : CatJob) : Option (List (List SnapVal)) × Except PyErr Unit :=
  match j.inj with
  | some e => (none, .error e)
  | none => update_sheet_category j.batchErr j.resizeErrs j.existing j.snap

/-- Lines 242–314: the `for category, prices in data.items():` loop.
The `except ... continue` at lines 311–314 catches every per-category
exception, so each category's outcome is recorded and the loop always
reaches the next category. -/
def process_categories :
    List CatJob → List (String × (Option (List (List SnapVal)) × Except PyErr Unit))
  | [] => []
  | j :: rest => (j.name, sync_category j) :: process_categories rest

/-- Lines 237–320, `update_google_sheet`: a failure of
`self.client.open('Commodity Price Tracker')` (line 240) is re-raised by
the outer `except` (lines 318–320) and aborts the whole update; with the
spreadsheet open, every category is processed by the loop. -/
def update_google_sheet (openErr : Option PyErr) (jobs : List CatJob) :
    Except PyErr (List (String × (Option (List (List SnapVal)) × Except PyErr Unit))) :=
  match openErr with
  | some e => .error e
  | none => .ok (process_categories jobs)

/-- `analyze_category` (backup module, lines 81–137): the whole analysis
body runs inside a `try`; its outcome is abstracted as `body` (the
branches over categories and prices, lines 84–133).  Any exception is
caught by the `except` at lines 135–137, which logs it and returns the
fixed placeholder string. -/
def analyze_category (body : Except PyErr String) : String :=
  match body with
  | .ok s => s
  | .error _ => "Analysis unavailable"

/-- Lines 92–126 of `fetch_commodity_prices`, one category:
`category_data` starts with `Date`, collects each instrument's resolved
value (`fields`, already reduced to a rounded price or `'N/A'` by the
per-symbol retry loop), and appends `Market Analysis` last. -/
def fetch_category_snapshot (date : String) (fields : List (String × SnapVal))
    (body : Except PyErr String) : List (String × SnapVal) :=
  ("Date", SnapVal.text date) :: fields ++
    [("Market Analysis", SnapVal.text (analyze_category body))]

/-- Lines 322–346, the `while retry_count < max_retries` loop of `run`,
as a function of each attempt's outcome (`passAt k` is the result of the
whole pass on attempt `k`).  `fuel` is `max_retries - retry_count`.
Returns the sleeps performed between attempts (`5 * retry_count` after
the increment, line 343), the number of attempts executed, and the final
outcome (`error` = the last exception re-raised at line 346). -/
def run_retry_loop (passAt : Nat → Except PyErr Unit) (fuel rc : Nat) :
    List Nat × Nat × Except PyErr Unit :=
  match fuel with
  | 0 => ([], 0, .ok ())
  | f + 1 =>
    match passAt rc with
    | .ok _ => ([], 1, .ok ())
    | .error e =>
      match f with
      | 0 => ([], 1, .error e)
      | _ + 1 =>
        let rest := run_retry_loop passAt f (rc + 1)
        (5 * (rc + 1) :: rest.1, rest.2.1 + 1, rest.2.2)

/-- `run` with its hard-coded `max_retries = 3` (line 324). -/
def run_tracker (passAt : Nat → Except PyErr Unit) : List Nat × Nat × Except PyErr Unit :=
  run_retry_loop passAt 3 0

/-- Witness pass profile for C8: the first attempt fails, the second
succeeds. -/
def c8PassProfile : Nat → Except PyErr Unit :=
  fun k => if k = 0 then .error .typeError else .ok ()

/-- Structure of the headers/row built for the fields between `Date`
and `Market Analysis`, together with the trailing commentary column. -/
lemma build_mid_structure (lw : List (String × Option ℚ)) (cv : SnapVal) :
    ∀ (fields : List (String × SnapVal)),
      (∀ p ∈ fields, p.1 ≠ "Date" ∧ p.1 ≠ "Market Analysis") →
      ∀ hs rs, build_wow_row lw (fields ++ [("Market Analysis", cv)]) = .ok (hs, rs) →
      ∃ ws : List SnapVal,
        ws.length = fields.length ∧
        (∀ q ∈ fields.zip ws, wow_cell q.1.2 (dictGet q.1.1 lw) = .ok q.2) ∧
        hs = (fields.flatMap fun p => [p.1, p.1 ++ " WoW"]) ++ ["Market Analysis"] ∧
        rs = ((fields.zip ws).flatMap fun q => [q.1.2, q.2]) ++ [cv] ∧
        hs.zip rs = ((fields.zip ws).flatMap fun q => [(q.1.1, q.1.2), (q.1.1 ++ " WoW", q.2)])
          ++ [("Market Analysis", cv)] ∧
        hs.length = rs.length := by
  intro fields
  induction fields with
  | nil =>
    intro _ hs rs hok
    have hstep : build_wow_row lw ([] ++ [("Market Analysis", cv)])
        = .ok (["Market Analysis"], [cv]) := rfl
    rw [hstep] at hok
    simp only [Except.ok.injEq, Prod.mk.injEq] at hok
    obtain ⟨rfl, rfl⟩ := hok
    exact ⟨[], rfl, by simp, rfl, rfl, rfl, rfl⟩
  | cons p t ih =>
    obtain ⟨n, v⟩ := p
    intro hmid hs rs hok
    have hn := hmid (n, v) (List.mem_cons_self _ _)
    have hcond : ¬(n = "Date" ∨ n = "Market Analysis") := by
      rintro (h | h)
      · exact hn.1 h
      · exact hn.2 h
    rw [List.cons_append] at hok
    rw [build_wow_row, if_neg hcond] at hok
    rcases hw : wow_cell v (dictGet n lw) with e | w <;> rw [hw] at hok
    · exact absurd hok (by simp)
    rcases hb : build_wow_row lw (t ++ [("Market Analysis", cv)]) with e | pr <;> rw [hb] at hok
    · exact absurd hok (by simp)
    obtain ⟨hs', rs'⟩ := pr
    simp only [Except.ok.injEq, Prod.mk.injEq] at hok
    obtain ⟨rfl, rfl⟩ := hok
    obtain ⟨ws', hlen, hall, hh, hr, hz, hlen2⟩ :=
      ih (fun p hp => hmid p (List.mem_cons_of_mem _ hp)) hs' rs' hb
    refine ⟨w :: ws', by simp [hlen], ?_, ?_, ?_, ?_, ?_⟩
    · rintro q hq
      rw [List.zip_cons_cons] at hq
      rcases List.mem_cons.mp hq with rfl | hq'
      · exact hw
      · exact hall q hq'
    · simp [List.flatMap_cons, hh]
    · simp [List.zip_cons_cons, List.flatMap_cons, hr]
    · simp [List.zip_cons_cons, List.flatMap_cons, hz]
    · simpa using hlen2

/-- Peeling the leading `Date` column off `build_wow_row`'s output. -/
lemma build_full_structure (lw : List (String × Option ℚ)) (d cv : SnapVal)
    (fields : List (String × SnapVal))
    (hmid : ∀ p ∈ fields, p.1 ≠ "Date" ∧ p.1 ≠ "Market Analysis") (hs rs)
    (hok : build_wow_row lw (("Date", d) :: fields ++ [("Market Analysis", cv)])
      = .ok (hs, rs)) :
    ∃ ws : List SnapVal,
      ws.length = fields.length ∧
      (∀ q ∈ fields.zip ws, wow_cell q.1.2 (dictGet q.1.1 lw) = .ok q.2) ∧
      hs = "Date" :: (fields.flatMap fun p => [p.1, p.1 ++ " WoW"]) ++ ["Market Analysis"] ∧
      rs = d :: ((fields.zip ws).flatMap fun q => [q.1.2, q.2]) ++ [cv] ∧
      hs.zip rs = ("Date", d) ::
        ((fields.zip ws).flatMap fun q => [(q.1.1, q.1.2), (q.1.1 ++ " WoW", q.2)])
        ++ [("Market Analysis", cv)] ∧
      hs.length = rs.length := by
  have hok2 : (match build_wow_row lw (fields ++ [("Market Analysis", cv)]) with
      | Except.error e => (Except.error e : Except PyErr (List String × List SnapVal))
      | Except.ok (hs2, rs2) => Except.ok ("Date" :: hs2, d :: rs2)) = Except.ok (hs, rs) := hok
  clear hok
  rcases hb : build_wow_row lw (fields ++ [("Market Analysis", cv)]) with e | pr <;>
    rw [hb] at hok2
  · exact absurd hok2 (by simp)
  obtain ⟨hs', rs'⟩ := pr
  simp only [Except.ok.injEq, Prod.mk.injEq] at hok2
  obtain ⟨rfl, rfl⟩ := hok2
  obtain ⟨ws, hlen, hall, hh, hr, hz, hlen2⟩ := build_mid_structure lw cv fields hmid hs' rs' hb
  exact ⟨ws, hlen, hall, by simp [hh], by simp [hr],
    by simp [List.zip_cons_cons, hz], by simpa using hlen2⟩

/-- Any element of a list pairs with some partner when zipped against an
equally long list. -/
lemma zip_partner {α β : Type} :
    ∀ (xs : List α) (ys : List β), xs.length = ys.length →
      ∀ x ∈ xs, ∃ y, (x, y) ∈ xs.zip ys := by
  intro xs
  induction xs with
  | nil => intro ys _ x hx; exact absurd hx (List.not_mem_nil x)
  | cons a t ih =>
    intro ys hlen x hx
    cases ys with
    | nil => exact absurd hlen (by simp)
    | cons b u =>
      rcases List.mem_cons.mp hx with rfl | hx'
      · exact ⟨b, by simp⟩
      · obtain ⟨y, hy⟩ := ih u (by simpa using hlen) x hx'
        exact ⟨y, List.mem_cons_of_mem _ hy⟩

/-- The only exception that can escape the WoW `try` block is
`ZeroDivisionError` (`ValueError`/`TypeError` are caught). -/
lemma wow_cell_error_eq (v : SnapVal) (pv : Option (Option ℚ)) (e : PyErr)
    (h : wow_cell v pv = .error e) : e = .zeroDivisionError := by
  rcases pv with _ | pv
  · exact absurd h (by simp [wow_cell])
  rcases pv with _ | p
  · exact absurd h (by simp [wow_cell])
  rcases hf : pyFloatSnap v with e' | c <;> rw [wow_cell, hf] at h
  · exact absurd h (by simp)
  · have h2 : (if p = 0 then (Except.error PyErr.zeroDivisionError : Except PyErr SnapVal)
        else Except.ok (SnapVal.num ((c - p) / p))) = Except.error e := h
    by_cases hp : p = 0
    · rw [if_pos hp] at h2
      injection h2 with h3
      exact h3.symm
    · rw [if_neg hp] at h2
      exact absurd h2 (by simp)

/-- An exception escaping the row-building loop is a `ZeroDivisionError`. -/
lemma build_wow_row_error_eq (lw : List (String × Option ℚ)) :
    ∀ (xs : List (String × SnapVal)) (e : PyErr),
      build_wow_row lw xs = .error e → e = .zeroDivisionError := by
  intro xs
  induction xs with
  | nil => intro e he; exact absurd he (by simp [build_wow_row])
  | cons p t ih =>
    obtain ⟨n, v⟩ := p
    intro e he
    rw [build_wow_row] at he
    by_cases hc : n = "Date" ∨ n = "Market Analysis"
    · rw [if_pos hc] at he
      rcases hb : build_wow_row lw t with e' | pr <;> rw [hb] at he
      · injection he with h'; exact h' ▸ ih e' hb
      · obtain ⟨hs, rs⟩ := pr
        exact absurd he (by simp)
    · rw [if_neg hc] at he
      rcases hw : wow_cell v (dictGet n lw) with e' | w <;> rw [hw] at he
      · injection he with h'; exact h' ▸ wow_cell_error_eq v _ e' hw
      rcases hb : build_wow_row lw t with e' | pr <;> rw [hb] at he
      · injection he with h'; exact h' ▸ ih e' hb
      · obtain ⟨hs, rs⟩ := pr
        exact absurd he (by simp)

/-- A numeric field whose last persisted value is `0` makes the
row-building loop raise. -/
lemma build_wow_row_zero_raises (lw : List (String × Option ℚ)) :
    ∀ (xs : List (String × SnapVal)) (n : String) (c : ℚ),
      n ≠ "Date" → n ≠ "Market Analysis" → (n, SnapVal.num c) ∈ xs →
      dictGet n lw = some (some 0) →
      ∃ e, build_wow_row lw xs = .error e := by
  intro xs
  induction xs with
  | nil => intro n c _ _ hmem _; exact absurd hmem (List.not_mem_nil _)
  | cons p t ih =>
    obtain ⟨m, u⟩ := p
    intro n c hd hm hmem hz
    rcases List.mem_cons.mp hmem with heq | htail
    · have h1 : n = m := congrArg Prod.fst heq
      have h2 : SnapVal.num c = u := congrArg Prod.snd heq
      subst h1; subst h2
      refine ⟨.zeroDivisionError, ?_⟩
      rw [build_wow_row, if_neg (by rintro (h | h); exacts [hd h, hm h]), hz]
      rfl
    · obtain ⟨e, he⟩ := ih n c hd hm htail hz
      by_cases hc : m = "Date" ∨ m = "Market Analysis"
      · exact ⟨e, by rw [build_wow_row, if_pos hc, he]⟩
      · rcases hw : wow_cell u (dictGet m lw) with e' | w
        · exact ⟨e', by rw [build_wow_row, if_neg hc, hw]⟩
        · exact ⟨e, by rw [build_wow_row, if_neg hc, hw, he]⟩

/-- If some header column outside `Date`/`Market Analysis`/`* WoW` meets
a last-row cell that is missing (`IndexError`) or neither `'N/A'` nor
parseable (`ValueError`), the `last_week_prices` loop raises. -/
lemma build_last_week_bad (lastRow : List SheetCell) :
    ∀ (hdrs : List SheetCell) (idx : Nat) (acc : List (String × Option ℚ))
      (i : Nat) (hi : i < hdrs.length),
      (hdrs.get ⟨i, hi⟩).text ≠ "Date" → (hdrs.get ⟨i, hi⟩).text ≠ "Market Analysis" →
      pyEndsWith (hdrs.get ⟨i, hi⟩).text "WoW" = false →
      (lastRow.get? (idx + i) = none ∨
        ∃ c, lastRow.get? (idx + i) = some c ∧ c.text ≠ "N/A" ∧ c.num = none) →
      ∃ e, build_last_week lastRow hdrs idx acc = .error e := by
  intro hdrs
  induction hdrs with
  | nil => intro idx acc i hi; exact absurd hi (by simp)
  | cons h t ih =>
    intro idx acc i hi hd hm hw hbad
    cases i with
    | zero =>
      have hd' : h.text ≠ "Date" := hd
      have hm' : h.text ≠ "Market Analysis" := hm
      have hw' : pyEndsWith h.text "WoW" = false := hw
      have hcond : ¬(h.text = "Date" ∨ h.text = "Market Analysis") := by
        rintro (x | x)
        · exact hd' x
        · exact hm' x
      have hwprop : ¬(pyEndsWith h.text "WoW" = true) := by rw [hw']; simp
      rw [Nat.add_zero] at hbad
      rcases hbad with hnone | ⟨c, hc, hct, hcn⟩
      · exact ⟨.indexError, by rw [build_last_week, if_neg hcond, if_neg hwprop, hnone]⟩
      · refine ⟨.valueError, ?_⟩
        rw [build_last_week, if_neg hcond, if_neg hwprop, hc]
        simp only [if_neg hct, hcn]
    | succ j =>
      have hj : j < t.length := by
        simp only [List.length_cons] at hi
        omega
      have hd' : (t.get ⟨j, hj⟩).text ≠ "Date" := hd
      have hm' : (t.get ⟨j, hj⟩).text ≠ "Market Analysis" := hm
      have hw' : pyEndsWith (t.get ⟨j, hj⟩).text "WoW" = false := hw
      have heq : idx + (j + 1) = (idx + 1) + j := by omega
      rw [heq] at hbad
      by_cases hc1 : h.text = "Date" ∨ h.text = "Market Analysis"
      · obtain ⟨e, he⟩ := ih (idx + 1) acc j hj hd' hm' hw' hbad
        exact ⟨e, by rw [build_last_week, if_pos hc1, he]⟩
      · by_cases hc2 : pyEndsWith h.text "WoW" = true
        · obtain ⟨e, he⟩ := ih (idx + 1) acc j hj hd' hm' hw' hbad
          exact ⟨e, by rw [build_last_week, if_neg hc1, if_pos hc2, he]⟩
        · rcases hcell : lastRow.get? idx with _ | c
          · exact ⟨.indexError, by rw [build_last_week, if_neg hc1, if_neg hc2, hcell]⟩
          · by_cases hna : c.text = "N/A"
            · obtain ⟨e, he⟩ := ih (idx + 1) (dictInsert h.text none acc) j hj hd' hm' hw' hbad
              refine ⟨e, ?_⟩
              rw [build_last_week, if_neg hc1, if_neg hc2, hcell]
              simp only [if_pos hna, he]
            · rcases hnum : c.num with _ | q
              · refine ⟨.valueError, ?_⟩
                rw [build_last_week, if_neg hc1, if_neg hc2, hcell]
                simp only [if_neg hna, hnum]
              · obtain ⟨e, he⟩ :=
                  ih (idx + 1) (dictInsert h.text (some q) acc) j hj hd' hm' hw' hbad
                refine ⟨e, ?_⟩
                rw [build_last_week, if_neg hc1, if_neg hc2, hcell]
                simp only [if_neg hna, hnum, he]

/-- The category loop distributes over list append. -/
lemma process_categories_append (xs ys : List CatJob) :
    process_categories (xs ++ ys) = process_categories xs ++ process_categories ys := by
  induction xs with
  | nil => rfl
  | cons j t ih => simp [process_categories, ih]

/-- The category loop records one outcome per category. -/
lemma process_categories_length (xs : List CatJob) :
    (process_categories xs).length = xs.length := by
  induction xs with
  | nil => rfl
  | cons j t ih => simp [process_categories, ih]

/-- C4: for every snapshot (Date first, commentary last, other fields in
insertion order, none of them named `Date`/`Market Analysis`), the header
row built by the delta loop is `Date`, then each base field immediately
followed by its `F WoW` companion, with `Market Analysis` last. -/
theorem c4_header_order (lw : List (String × Option ℚ)) (d cv : SnapVal)
    (fields : List (String × SnapVal))
    (hmid : ∀ p ∈ fields, p.1 ≠ "Date" ∧ p.1 ≠ "Market Analysis")
    (hs : List String) (rs : List SnapVal)
    (hok : build_wow_row lw (("Date", d) :: fields ++ [("Market Analysis", cv)])
      = .ok (hs, rs)) :
    hs = "Date" :: (fields.flatMap fun p => [p.1, p.1 ++ " WoW"]) ++ ["Market Analysis"] := by
  obtain ⟨ws, _, _, hh, _, _, _⟩ := build_full_structure lw d cv fields hmid hs rs hok
  exact hh

/-- Witness for C4 at a concrete snapshot. -/
theorem c4_header_order_witness :
    ["Date", "Gold", "Gold WoW", "Market Analysis"]
      = "Date" :: ([("Gold", SnapVal.num 1950)].flatMap fun p => [p.1, p.1 ++ " WoW"])
        ++ ["Market Analysis"] :=
  c4_header_order [] (SnapVal.text "2024-01-08") (SnapVal.text "g")
    [("Gold", SnapVal.num 1950)] (by decide)
    ["Date", "Gold", "Gold WoW", "Market Analysis"]
    [SnapVal.text "2024-01-08", SnapVal.num 1950, SnapVal.na, SnapVal.text "g"] (by rfl)

/-- C5: the output row is exactly as long as the header row, and
position by position the row carries the snapshot value under each base
header and that field's WoW cell under the companion header (with Date
and commentary verbatim at the ends). -/
theorem c5_row_alignment (lw : List (String × Option ℚ)) (d cv : SnapVal)
    (fields : List (String × SnapVal))
    (hmid : ∀ p ∈ fields, p.1 ≠ "Date" ∧ p.1 ≠ "Market Analysis")
    (hs : List String) (rs : List SnapVal)
    (hok : build_wow_row lw (("Date", d) :: fields ++ [("Market Analysis", cv)])
      = .ok (hs, rs)) :
    hs.length = rs.length ∧
    ∃ ws : List SnapVal, ws.length = fields.length ∧
      (∀ q ∈ fields.zip ws, wow_cell q.1.2 (dictGet q.1.1 lw) = .ok q.2) ∧
      hs.zip rs = ("Date", d) ::
        ((fields.zip ws).flatMap fun q => [(q.1.1, q.1.2), (q.1.1 ++ " WoW", q.2)])
        ++ [("Market Analysis", cv)] := by
  obtain ⟨ws, hlen, hall, _, _, hz, hlen2⟩ := build_full_structure lw d cv fields hmid hs rs hok
  exact ⟨hlen2, ws, hlen, hall, hz⟩

/-- Witness for C5 at a concrete snapshot with one prior value. -/
theorem c5_row_alignment_witness :
    (["Date", "WTI", "WTI WoW", "Market Analysis"] : List String).length
      = ([SnapVal.text "2024-01-08", SnapVal.num 80, SnapVal.num ((80 - 75) / 75),
          SnapVal.text "w"] : List SnapVal).length ∧
    ∃ ws : List SnapVal, ws.length = [("WTI", SnapVal.num 80)].length ∧
      (∀ q ∈ [("WTI", SnapVal.num 80)].zip ws,
        wow_cell q.1.2 (dictGet q.1.1 [("WTI", some 75)]) = .ok q.2) ∧
      List.zip ["Date", "WTI", "WTI WoW", "Market Analysis"]
          [SnapVal.text "2024-01-08", SnapVal.num 80, SnapVal.num ((80 - 75) / 75),
           SnapVal.text "w"]
        = ("Date", SnapVal.text "2024-01-08") ::
          (([("WTI", SnapVal.num 80)].zip ws).flatMap
            fun q => [(q.1.1, q.1.2), (q.1.1 ++ " WoW", q.2)])
          ++ [("Market Analysis", SnapVal.text "w")] :=
  c5_row_alignment [("WTI", some 75)] (SnapVal.text "2024-01-08") (SnapVal.text "w")
    [("WTI", SnapVal.num 80)] (by decide)
    ["Date", "WTI", "WTI WoW", "Market Analysis"]
    [SnapVal.text "2024-01-08", SnapVal.num 80, SnapVal.num ((80 - 75) / 75),
     SnapVal.text "w"] (by rfl)

/-- C1 (amended): provided the category's row build completes, the cell
written under `F WoW` is `(current − previous) / previous` as a
fractional ratio when both values are numeric and the prior is non-zero,
and is the `'N/A'` sentinel when the field has no prior value
(no prior data row or absent column), the prior cell was `'N/A'`, or the
current value does not parse.  (A prior cell that is neither parseable
nor `'N/A'` instead aborts the category, see the counterexample.) -/
theorem c1_wow_ratio (lw : List (String × Option ℚ)) (d cv : SnapVal)
    (fields : List (String × SnapVal))
    (hmid : ∀ p ∈ fields, p.1 ≠ "Date" ∧ p.1 ≠ "Market Analysis")
    (hs : List String) (rs : List SnapVal)
    (hok : build_wow_row lw (("Date", d) :: fields ++ [("Market Analysis", cv)])
      = .ok (hs, rs))
    (n : String) (v : SnapVal) (hmem : (n, v) ∈ fields) :
    (∀ c p : ℚ, v = SnapVal.num c → dictGet n lw = some (some p) → p ≠ 0 →
      (n ++ " WoW", SnapVal.num ((c - p) / p)) ∈ hs.zip rs) ∧
    ((dictGet n lw = none ∨ dictGet n lw = some none ∨
        pyFloatSnap v = .error .valueError) →
      (n ++ " WoW", SnapVal.na) ∈ hs.zip rs) := by
  obtain ⟨ws, hlen, hall, _, _, hz, _⟩ := build_full_structure lw d cv fields hmid hs rs hok
  obtain ⟨w, hwmem⟩ := zip_partner fields ws hlen.symm (n, v) hmem
  have hw := hall _ hwmem
  have hmemzip : (n ++ " WoW", w) ∈ hs.zip rs := by
    rw [hz]
    refine List.mem_cons_of_mem _ (List.mem_append_left _ ?_)
    exact List.mem_flatMap.mpr ⟨((n, v), w), hwmem, by simp⟩
  constructor
  · rintro c p rfl hget hp
    rw [hget] at hw
    have hcalc : wow_cell (SnapVal.num c) (some (some p))
        = if p = 0 then .error .zeroDivisionError
          else .ok (.num ((c - p) / p)) := rfl
    rw [if_neg hp] at hcalc
    rw [hcalc] at hw
    injection hw with hw'
    have hw2 : w = SnapVal.num ((c - p) / p) := hw'.symm
    rwa [hw2] at hmemzip
  · rintro (hget | hget | hflt)
    · rw [hget] at hw
      have hcalc : wow_cell v none = .ok SnapVal.na := rfl
      rw [hcalc] at hw
      injection hw with hw'
      have hw2 : w = SnapVal.na := hw'.symm
      rwa [hw2] at hmemzip
    · rw [hget] at hw
      have hcalc : wow_cell v (some none) = .ok SnapVal.na := rfl
      rw [hcalc] at hw
      injection hw with hw'
      have hw2 : w = SnapVal.na := hw'.symm
      rwa [hw2] at hmemzip
    · rcases hget : dictGet n lw with _ | pv
      · rw [hget] at hw
        have hcalc : wow_cell v none = .ok SnapVal.na := rfl
        rw [hcalc] at hw
        injection hw with hw'
        have hw2 : w = SnapVal.na := hw'.symm
        rwa [hw2] at hmemzip
      · rcases pv with _ | p
        · rw [hget] at hw
          have hcalc : wow_cell v (some none) = .ok SnapVal.na := rfl
          rw [hcalc] at hw
          injection hw with hw'
          have hw2 : w = SnapVal.na := hw'.symm
          rwa [hw2] at hmemzip
        · rw [hget] at hw
          have hcalc : wow_cell v (some (some p)) = .ok SnapVal.na := by
            rw [show wow_cell v (some (some p))
                = (match pyFloatSnap v with
                   | Except.ok c => if p = 0 then Except.error PyErr.zeroDivisionError
                     else Except.ok (SnapVal.num ((c - p) / p))
                   | Except.error _ => Except.ok SnapVal.na) from rfl, hflt]
          rw [hcalc] at hw
          injection hw with hw'
          have hw2 : w = SnapVal.na := hw'.symm
          rwa [hw2] at hmemzip

/-- Witness for C1 (scenario 1 of the spec): DXY moves from 102.0 to
104.2 and the `DXY WoW` cell is the exact ratio. -/
theorem c1_wow_ratio_witness :
    ("DXY" ++ " WoW", SnapVal.num (((521 : ℚ)/5 - 102) / 102)) ∈
      List.zip ["Date", "DXY", "DXY WoW", "Market Analysis"]
        [SnapVal.text "2024-01-08", SnapVal.num (521/5),
         SnapVal.num (((521 : ℚ)/5 - 102) / 102), SnapVal.text "c"] :=
  (c1_wow_ratio [("DXY", some 102)] (SnapVal.text "2024-01-08") (SnapVal.text "c")
    [("DXY", SnapVal.num (521/5))] (by decide)
    ["Date", "DXY", "DXY WoW", "Market Analysis"]
    [SnapVal.text "2024-01-08", SnapVal.num (521/5),
     SnapVal.num (((521 : ℚ)/5 - 102) / 102), SnapVal.text "c"] (by rfl)
    "DXY" (SnapVal.num (521/5)) (by simp)).1 (521/5) 102 rfl (by rfl) (by norm_num)

/-- C2 (amended): a prior value parsing as 0 for a numeric field makes
the WoW computation raise `ZeroDivisionError` (the
`except (ValueError, TypeError)` clause does not catch it): no row is
built, so nothing is written for the category this run; the exception is
caught at the category boundary. -/
theorem c2_div_by_zero_raises (lw : List (String × Option ℚ)) (d cv : SnapVal)
    (fields : List (String × SnapVal))
    (hmid : ∀ p ∈ fields, p.1 ≠ "Date" ∧ p.1 ≠ "Market Analysis")
    (n : String) (c : ℚ) (hmem : (n, SnapVal.num c) ∈ fields)
    (hz : dictGet n lw = some (some 0)) :
    build_wow_row lw (("Date", d) :: fields ++ [("Market Analysis", cv)])
      = .error .zeroDivisionError := by
  have hn := hmid (n, SnapVal.num c) hmem
  have hmem2 : (n, SnapVal.num c) ∈ ("Date", d) :: fields ++ [("Market Analysis", cv)] :=
    List.mem_cons_of_mem _ (List.mem_append_left _ hmem)
  obtain ⟨e, he⟩ := build_wow_row_zero_raises lw _ n c hn.1 hn.2 hmem2 hz
  have heq := build_wow_row_error_eq lw _ e he
  rwa [heq] at he

/-- Witness for the amended C2: spec scenario 4 (prior Silver `0`,
current `25.3`). -/
theorem c2_div_by_zero_raises_witness :
    build_wow_row [("Silver", some 0)]
      (("Date", SnapVal.text "2024-01-08") :: [("Silver", SnapVal.num (253/10))]
        ++ [("Market Analysis", SnapVal.text "m")])
      = .error .zeroDivisionError :=
  c2_div_by_zero_raises [("Silver", some 0)] (SnapVal.text "2024-01-08")
    (SnapVal.text "m") [("Silver", SnapVal.num (253/10))] (by decide)
    "Silver" (253/10) (by simp) (by rfl)

/-- C2 as stated is false: with prior Silver `0` and current `25.3` the
category write does not complete normally and no `'N/A'` cell is
written — the update aborts with `ZeroDivisionError` and the worksheet
is left untouched. -/
theorem c2_counterexample :
    update_sheet_category none []
      [[⟨"Date", none⟩, ⟨"Silver", none⟩, ⟨"Silver WoW", none⟩, ⟨"Market Analysis", none⟩],
       [⟨"2024-01-01", none⟩, ⟨"0", some 0⟩, ⟨"N/A", none⟩, ⟨"m", none⟩]]
      [("Date", SnapVal.text "2024-01-08"), ("Silver", SnapVal.num (253/10)),
       ("Market Analysis", SnapVal.text "x")]
      = (none, .error .zeroDivisionError) := by rfl

/-- C3 (amended): a prior-row cell under a WoW-relevant header that is
missing (`IndexError`) or neither `'N/A'` nor parseable (`ValueError`)
makes `last_week_prices` raise; the exception aborts the category's
update before any write (the worksheet is unchanged), instead of
degrading that field's WoW cell. -/
theorem c3_malformed_prior_aborts (hdrsRow : List SheetCell)
    (rows : List (List SheetCell)) (hne : rows ≠ []) (i : Nat)
    (hi : i < hdrsRow.length)
    (hd : (hdrsRow.get ⟨i, hi⟩).text ≠ "Date")
    (hm : (hdrsRow.get ⟨i, hi⟩).text ≠ "Market Analysis")
    (hw : pyEndsWith (hdrsRow.get ⟨i, hi⟩).text "WoW" = false)
    (hbad : (rows.getLast hne).get? i = none ∨
      ∃ c, (rows.getLast hne).get? i = some c ∧ c.text ≠ "N/A" ∧ c.num = none) :
    ∃ e, last_week_prices (hdrsRow :: rows) = .error e ∧
      ∀ b rz snap, update_sheet_category b rz (hdrsRow :: rows) snap
        = (none, .error e) := by
  obtain ⟨r, rest, rfl⟩ : ∃ r rest, rows = r :: rest := by
    cases rows with
    | nil => exact absurd rfl hne
    | cons r rest => exact ⟨r, rest, rfl⟩
  have hbad0 : (List.getLast (r :: rest) (List.cons_ne_nil r rest)).get? (0 + i) = none ∨
      ∃ c, (List.getLast (r :: rest) (List.cons_ne_nil r rest)).get? (0 + i) = some c ∧
        c.text ≠ "N/A" ∧ c.num = none := by
    rw [Nat.zero_add]
    exact hbad
  obtain ⟨e, he⟩ := build_last_week_bad (List.getLast (r :: rest) (List.cons_ne_nil r rest))
    hdrsRow 0 [] i hi hd hm hw hbad0
  have hlast : last_week_prices (hdrsRow :: r :: rest) = .error e := by
    rw [last_week_prices]
    exact he
  exact ⟨e, hlast, fun b rz snap => by rw [update_sheet_category, hlast]⟩

/-- Witness for the amended C3 at a concrete malformed prior row. -/
theorem c3_malformed_prior_aborts_witness :
    ∃ e, last_week_prices
        [[⟨"Date", none⟩, ⟨"Copper", none⟩, ⟨"Market Analysis", none⟩],
         [⟨"2024-01-05", none⟩, ⟨"oops", none⟩, ⟨"m", none⟩]] = .error e ∧
      ∀ b rz snap, update_sheet_category b rz
        [[⟨"Date", none⟩, ⟨"Copper", none⟩, ⟨"Market Analysis", none⟩],
         [⟨"2024-01-05", none⟩, ⟨"oops", none⟩, ⟨"m", none⟩]] snap
        = (none, .error e) :=
  c3_malformed_prior_aborts
    [⟨"Date", none⟩, ⟨"Copper", none⟩, ⟨"Market Analysis", none⟩]
    [[⟨"2024-01-05", none⟩, ⟨"oops", none⟩, ⟨"m", none⟩]]
    (List.cons_ne_nil _ _) 1 (by decide) (by decide) (by decide) (by decide)
    (Or.inr ⟨⟨"oops", none⟩, rfl, by decide, rfl⟩)

/-- C3 as stated is false: a prior row shorter than the header row makes
the delta computation raise `IndexError`, aborting the category (no
`'N/A'` degradation, no write). -/
theorem c3_counterexample :
    update_sheet_category none []
      [[⟨"Date", none⟩, ⟨"Corn", none⟩, ⟨"Market Analysis", none⟩],
       [⟨"2024-01-01", none⟩]]
      [("Date", SnapVal.text "d"), ("Corn", SnapVal.num 4),
       ("Market Analysis", SnapVal.text "x")]
      = (none, .error .indexError) := by rfl

/-- C1 as stated is false in its `'N/A'` clause: a prior cell that fails
to parse without being `'N/A'` (here `"abc"` under `Gold`) does not
yield an `'N/A'` WoW cell — the update aborts with `ValueError` and
nothing at all is written. -/
theorem c1_counterexample :
    update_sheet_category none []
      [[⟨"Date", none⟩, ⟨"Gold", none⟩, ⟨"Gold WoW", none⟩, ⟨"Market Analysis", none⟩],
       [⟨"2024-01-01", none⟩, ⟨"abc", none⟩, ⟨"N/A", none⟩, ⟨"m", none⟩]]
      [("Date", SnapVal.text "2024-01-08"), ("Gold", SnapVal.num 1950),
       ("Market Analysis", SnapVal.text "x")]
      = (none, .error .valueError) := by rfl

/-- C6: whenever a category's synchronization completes without an
exception, the worksheet afterwards holds exactly the freshly built
header row and the single new data row — every previously persisted row
is gone, no matter how many rows `existing` had. -/
theorem c6_full_replace (b : Option PyErr) (rz : List (Option PyErr))
    (existing : List (List SheetCell)) (d cv : SnapVal)
    (fields : List (String × SnapVal)) (sh : Option (List (List SnapVal)))
    (hupd : update_sheet_category b rz existing
      (("Date", d) :: fields ++ [("Market Analysis", cv)]) = (sh, .ok ())) :
    ∃ lw hs rs, last_week_prices existing = .ok lw ∧
      build_wow_row lw (("Date", d) :: fields ++ [("Market Analysis", cv)])
        = .ok (hs, rs) ∧
      sh = some [hs.map SnapVal.text, rs] := by
  have hne : ¬(("Date", d) :: fields ++ [("Market Analysis", cv)] = []) := by simp
  rcases hlw : last_week_prices existing with e | lw <;>
    simp only [update_sheet_category, hlw, if_neg hne] at hupd
  · exact absurd hupd (by simp)
  rcases hb : build_wow_row lw (("Date", d) :: fields ++ [("Market Analysis", cv)])
    with e | pr <;> simp only [hb] at hupd
  · exact absurd hupd (by simp)
  obtain ⟨hs, rs⟩ := pr
  rcases b with _ | e <;> simp only [format_worksheet, Prod.mk.injEq] at hupd
  · obtain ⟨h1, _⟩ := hupd
    exact ⟨lw, hs, rs, rfl, hb, h1.symm⟩
  · exact absurd hupd.2 (by simp)

/-- Witness for C6 on an empty prior sheet. -/
theorem c6_full_replace_witness :
    ∃ lw hs rs, last_week_prices [] = .ok lw ∧
      build_wow_row lw (("Date", SnapVal.text "2024-01-08") ::
        [("Brent", SnapVal.num 80)] ++ [("Market Analysis", SnapVal.text "b")])
        = .ok (hs, rs) ∧
      (some [[SnapVal.text "Date", SnapVal.text "Brent", SnapVal.text "Brent WoW",
          SnapVal.text "Market Analysis"],
        [SnapVal.text "2024-01-08", SnapVal.num 80, SnapVal.na, SnapVal.text "b"]]
        : Option (List (List SnapVal))) = some [hs.map SnapVal.text, rs] :=
  c6_full_replace none [] [] (SnapVal.text "2024-01-08") (SnapVal.text "b")
    [("Brent", SnapVal.num 80)]
    (some [[SnapVal.text "Date", SnapVal.text "Brent", SnapVal.text "Brent WoW",
        SnapVal.text "Market Analysis"],
      [SnapVal.text "2024-01-08", SnapVal.num 80, SnapVal.na, SnapVal.text "b"]])
    (by rfl)

/-- C7: with the spreadsheet open, the loop records one outcome per
category and the outcome at each position depends only on that
category's own job — in particular a category placed between `pre` and
`post` is processed no matter what happens in `pre`, and every job in
`post` is still processed whatever `sync_category j` returns.  Only a
failure opening the top-level spreadsheet aborts the whole update. -/
theorem c7_category_isolation (pre post : List CatJob) (j : CatJob) (e : PyErr) :
    process_categories (pre ++ j :: post)
      = process_categories pre ++ (j.name, sync_category j) :: process_categories post ∧
    (process_categories (pre ++ j :: post)).length = pre.length + post.length + 1 ∧
    update_google_sheet none (pre ++ j :: post)
      = .ok (process_categories (pre ++ j :: post)) ∧
    update_google_sheet (some e) (pre ++ j :: post) = .error e := by
  refine ⟨?_, ?_, rfl, rfl⟩
  · rw [process_categories_append]
    rfl
  · rw [process_categories_length, List.length_append, List.length_cons]
    omega

/-- C8: the run controller attempts the pass at most 3 times; after each
failed attempt but the last it sleeps an amount growing with the attempt
number (5, then 10) and retries; a successful pass stops the loop at
once; three failures re-raise the last error. -/
theorem c8_retry_controller (passAt : Nat → Except PyErr Unit) :
    (run_tracker passAt).2.1 ≤ 3 ∧
    (passAt 0 = .ok () → run_tracker passAt = ([], 1, .ok ())) ∧
    (∀ e0, passAt 0 = .error e0 → passAt 1 = .ok () →
      run_tracker passAt = ([5], 2, .ok ())) ∧
    (∀ e0 e1, passAt 0 = .error e0 → passAt 1 = .error e1 → passAt 2 = .ok () →
      run_tracker passAt = ([5, 10], 3, .ok ())) ∧
    (∀ e0 e1 e2, passAt 0 = .error e0 → passAt 1 = .error e1 →
      passAt 2 = .error e2 → run_tracker passAt = ([5, 10], 3, .error e2)) := by
  have s3 : run_retry_loop passAt 3 0 = match passAt 0 with
      | .ok _ => ([], 1, .ok ())
      | .error _ => (5 * 1 :: (run_retry_loop passAt 2 1).1,
          (run_retry_loop passAt 2 1).2.1 + 1, (run_retry_loop passAt 2 1).2.2) := rfl
  have s2 : run_retry_loop passAt 2 1 = match passAt 1 with
      | .ok _ => ([], 1, .ok ())
      | .error _ => (5 * 2 :: (run_retry_loop passAt 1 2).1,
          (run_retry_loop passAt 1 2).2.1 + 1, (run_retry_loop passAt 1 2).2.2) := rfl
  have s1 : run_retry_loop passAt 1 2 = match passAt 2 with
      | .ok _ => ([], 1, .ok ())
      | .error e => ([], 1, .error e) := rfl
  refine ⟨?_, ?_, ?_, ?_, ?_⟩
  · show (run_retry_loop passAt 3 0).2.1 ≤ 3
    rw [s3]
    rcases passAt 0 with _ | _
    · rw [s2]
      rcases passAt 1 with _ | _
      · rw [s1]
        rcases passAt 2 with _ | _ <;> simp
      · simp
    · simp
  · intro h0
    show run_retry_loop passAt 3 0 = ([], 1, .ok ())
    rw [s3, h0]
  · intro e0 h0 h1
    show run_retry_loop passAt 3 0 = ([5], 2, .ok ())
    rw [s3, h0]
    simp only [s2, h1]
  · intro e0 e1 h0 h1 h2
    show run_retry_loop passAt 3 0 = ([5, 10], 3, .ok ())
    rw [s3, h0]
    simp only [s2, h1, s1, h2]
  · intro e0 e1 e2 h0 h1 h2
    show run_retry_loop passAt 3 0 = ([5, 10], 3, .error e2)
    rw [s3, h0]
    simp only [s2, h1, s1, h2]

/-- Witness for C8: one failed attempt, one sleep of 5, success on the
second attempt. -/
theorem c8_retry_controller_witness :
    run_tracker c8PassProfile = ([5], 2, .ok ()) :=
  (c8_retry_controller c8PassProfile).2.2.1 .typeError (by rfl) (by rfl)

/-- C9: whatever exception the commentary body raises, the snapshot is
still produced with every field intact and the commentary slot holding
the fixed placeholder; a successful body passes its text through. -/
theorem c9_commentary_fallback :
    ∀ (date : String) (fields : List (String × SnapVal)) (e : PyErr) (s : String),
      fetch_category_snapshot date fields (.error e)
        = ("Date", SnapVal.text date) :: fields
          ++ [("Market Analysis", SnapVal.text "Analysis unavailable")] ∧
      fetch_category_snapshot date fields (.ok s)
        = ("Date", SnapVal.text date) :: fields
          ++ [("Market Analysis", SnapVal.text s)] :=
  fun _ _ _ _ => ⟨rfl, rfl⟩

/-- C10 (amended): once the header and data rows are written, the
formatting step never touches them again: the final sheet is exactly the
two freshly written rows whatever the formatting outcome; a failure of
the batched format call re-raises out of `format_worksheet` (it is then
caught at the category boundary), while auto-resize failures are
swallowed, so with a healthy batch call the category completes
normally. -/
theorem c10_format_failure_isolated (b : Option PyErr) (rz : List (Option PyErr))
    (existing : List (List SheetCell)) (snap : List (String × SnapVal))
    (lw : List (String × Option ℚ)) (hs : List String) (rs : List SnapVal)
    (sh : Option (List (List SnapVal))) (st : Except PyErr Unit)
    (hlw : last_week_prices existing = .ok lw)
    (hne : snap ≠ [])
    (hb : build_wow_row lw snap = .ok (hs, rs))
    (hupd : update_sheet_category b rz existing snap = (sh, st)) :
    sh = some [hs.map SnapVal.text, rs] ∧
    (∀ e, b = some e → st = .error e) ∧
    (b = none → st = .ok ()) := by
  rcases b with _ | e <;>
    simp only [update_sheet_category, hlw, if_neg hne, hb, format_worksheet,
      Prod.mk.injEq] at hupd <;> obtain ⟨h1, h2⟩ := hupd
  · exact ⟨h1.symm, fun e he => absurd he (by simp), fun _ => h2.symm⟩
  · refine ⟨h1.symm, ?_, fun he => absurd he (by simp)⟩
    intro e2 he2
    injection he2 with he3
    rw [← he3]
    exact h2.symm

/-- Witness for the amended C10: batch formatting fails with
`ValueError`, yet the two written rows survive and the error is the one
re-raised. -/
theorem c10_format_failure_isolated_witness :
    (some [[SnapVal.text "Date", SnapVal.text "Soybean", SnapVal.text "Soybean WoW",
        SnapVal.text "Market Analysis"],
      [SnapVal.text "2024-01-08", SnapVal.num 13, SnapVal.na, SnapVal.text "s"]]
      : Option (List (List SnapVal)))
      = some [List.map SnapVal.text
          ["Date", "Soybean", "Soybean WoW", "Market Analysis"],
        [SnapVal.text "2024-01-08", SnapVal.num 13, SnapVal.na, SnapVal.text "s"]] ∧
    (∀ e, (some PyErr.valueError : Option PyErr) = some e →
      (Except.error PyErr.valueError : Except PyErr Unit) = .error e) ∧
    ((some PyErr.valueError : Option PyErr) = none →
      (Except.error PyErr.valueError : Except PyErr Unit) = .ok ()) :=
  c10_format_failure_isolated (some .valueError) [some .indexError] []
    [("Date", SnapVal.text "2024-01-08"), ("Soybean", SnapVal.num 13),
     ("Market Analysis", SnapVal.text "s")] []
    ["Date", "Soybean", "Soybean WoW", "Market Analysis"]
    [SnapVal.text "2024-01-08", SnapVal.num 13, SnapVal.na, SnapVal.text "s"]
    (some [[SnapVal.text "Date", SnapVal.text "Soybean", SnapVal.text "Soybean WoW",
        SnapVal.text "Market Analysis"],
      [SnapVal.text "2024-01-08", SnapVal.num 13, SnapVal.na, SnapVal.text "s"]])
    (.error .valueError) (by rfl) (by simp) (by rfl) (by rfl)

/-- C10 as stated is false: a formatting failure is not swallowed at the
formatting step — it escapes `format_worksheet` and the category's
synchronization ends in that error (though the written rows stay). -/
theorem c10_counterexample :
    update_sheet_category (some PyErr.typeError) [] []
      [("Date", SnapVal.text "d"), ("WTI", SnapVal.num 80),
       ("Market Analysis", SnapVal.text "x")]
      = (some [[SnapVal.text "Date", SnapVal.text "WTI", SnapVal.text "WTI WoW",
          SnapVal.text "Market Analysis"],
         [SnapVal.text "d", SnapVal.num 80, SnapVal.na, SnapVal.text "x"]],
        .error .typeError) := by rfl
